import Mathlib

namespace WMerge

/-!
Verification development for the wmmerge repository: a chat-bot that
accumulates video uploads per user, concatenates them with an external
media tool, burns in two text overlays, delivers the result and cleans up.

The embedding models:
- the scratch filesystem as a list of (path, content) entries;
- observable effects (user-visible replies and status edits, file delivery,
  log lines, subprocess invocations) as an event trace;
- the per-user pending-upload map (`user_videos` in bot.py);
- the fallible operations (external tool exit status, network download and
  delivery, file deletion) through explicit boolean oracles, with Python
  exception flow embedded as `Except` values that carry the state at the
  raise point so that `try/except` handlers can be modelled faithfully.
-/

abbrev Path := String

/-- A single-quote character, used by the manifest lines and the drawtext
filters (`file '<path>'`, `text='...'`). -/
def tick : String := "\x27"

/-- The scratch filesystem: a flat association of paths to file contents.
Later entries are shadowed by earlier ones; `writeFile` keeps at most one
entry per path. -/
structure FS where
  entries : List (Path × String)
deriving Repr, DecidableEq

/-- `os.path.exists` on the modelled filesystem. -/
def FS.hasFile (fs : FS) (p : Path) : Bool :=
  fs.entries.any (fun e => e.1 == p)

/-- `os.remove` / `Path.unlink` on the modelled filesystem. -/
def FS.removeFile (fs : FS) (p : Path) : FS :=
  ⟨fs.entries.filter (fun e => e.1 != p)⟩

/-- `open(p, "w")` followed by writing `c`: overwrites any previous entry. -/
def FS.writeFile (fs : FS) (p : Path) (c : String) : FS :=
  ⟨(p, c) :: (fs.removeFile p).entries⟩

/-- `TEMP_DIR = Path("./temp")` in video_processor.py. -/
def TEMP_DIR : String := "./temp"

/-- `TEMP_DIR / str(user_id)`, rendered with a trailing separator so that
membership in the directory is a string-prefix test. -/
def userDir (uid : Nat) : String := TEMP_DIR ++ "/" ++ toString uid ++ "/"

/-- A path inside a user's scratch directory. -/
def inDir (uid : Nat) (name : String) : Path := userDir uid ++ name

/-- Observable effects of the handlers, in order of occurrence.
`sendVideo` records whether the delivered file existed at delivery time.
`runSub` records an external-tool invocation with its argument list. -/
inductive Event where
  | reply (text : String)
  | editStatus (text : String)
  | sendVideo (path : Path) (existsAtSend : Bool) (caption : String)
  | logInfo (text : String)
  | logError (text : String)
  | runSub (cmd : List String)
deriving Repr, DecidableEq

/-- Whether an event is user-visible (replies, status edits, file delivery)
as opposed to internal (log lines, subprocess launches). -/
def Event.visible : Event → Bool
  | .reply _ => true
  | .editStatus _ => true
  | .sendVideo _ _ _ => true
  | _ => false

/-- Whether an event is an external-tool invocation. -/
def isRunSub : Event → Bool
  | .runSub _ => true
  | _ => false

/-- Errors raised by the modelled operations; all of them are Python
`Exception`s (so an `except Exception` handler catches every one). -/
inductive PyErr where
  | mergeFailed
  | watermarkFailed
  | removeFailed (p : Path)
  | transportFailed
deriving Repr, DecidableEq

/-- The `str(e)` rendering of each modelled exception. -/
def PyErr.msg : PyErr → String
  | .mergeFailed => "Failed to merge videos"
  | .watermarkFailed => "Failed to apply watermark"
  | .removeFailed p => "could not remove " ++ p
  | .transportFailed => "network error"

/- ---------- watermark configuration (video_processor.py constants) ---------- -/

def WATERMARK_TEXT : String := "Insta / Telegram - @supplywalah"

def EMAIL_TEXT : String := "Supplywalah@proton.me"

def FONT_PATH : String := "/usr/share/fonts/truetype/dejavu/DejaVuSans-Bold.ttf"

def FONT_SIZE : Nat := 20

def FONT_COLOR : String := "white"

def POSITION : String := "bottom-right"

/-- The `position_map` dictionary of `apply_watermark`, looked up by key
equality exactly as Python `dict.get` does. -/
def position_map (p : String) : Option String :=
  if p = "center" then some "x=(w-text_w)/2:y=(h-text_h)/2"
  else if p = "bottom" then some "x=(w-text_w)/2:y=h-th-10"
  else if p = "bottom-right" then some "x=w-tw-10:y=h-th-10"
  else if p = "top-left" then some "x=10:y=10"
  else if p = "top-right" then some "x=w-tw-10:y=10"
  else none

/-- The bottom-right coordinate string, the fallback of the `.get` call. -/
def bottomRightCoords : String := "x=w-tw-10:y=h-th-10"

/-- `position_map.get(POSITION, "x=w-tw-10:y=h-th-10")`, parameterised by the
configured anchor string. -/
def position_coords (pos : String) : String :=
  (position_map pos).getD bottomRightCoords

/-- The `-vf` filter string built by `apply_watermark`: the primary watermark
drawtext followed by the secondary (email) drawtext, joined by ", ". -/
def filter_text (pos : String) : String :=
  ("drawtext=text=" ++ tick ++ WATERMARK_TEXT ++ tick ++ ":fontfile=" ++ FONT_PATH ++ ":"
    ++ position_coords pos ++ ":fontcolor=" ++ FONT_COLOR ++ ":fontsize="
    ++ toString FONT_SIZE ++ ":shadowcolor=black:shadowx=2:shadowy=2")
  ++ (", drawtext=text=" ++ tick ++ EMAIL_TEXT ++ tick ++ ":fontfile=" ++ FONT_PATH
    ++ ":x=(w-text_w)/2:y=10:fontcolor=" ++ FONT_COLOR ++ ":fontsize="
    ++ toString FONT_SIZE ++ ":shadowcolor=black:shadowx=2:shadowy=2")

/-- A single text-draw operation as §4.2 of the spec describes one: a text,
an anchor coordinate expression, and fixed font, size, colour and shadow
offset. Used to compare the source-built filter against the spec's
two-operation description. -/
def drawtextFilter (text coords : String) : String :=
  "drawtext=text=" ++ tick ++ text ++ tick ++ ":fontfile=" ++ FONT_PATH ++ ":"
    ++ coords ++ ":fontcolor=" ++ FONT_COLOR ++ ":fontsize=" ++ toString FONT_SIZE
    ++ ":shadowcolor=black:shadowx=2:shadowy=2"

/-- The ffmpeg invocation of `apply_watermark`. -/
def watermark_cmd (input output : Path) : List String :=
  ["ffmpeg", "-i", input, "-vf", filter_text POSITION, "-codec:a", "copy", "-y", output]

/-- The ffmpeg invocation of the concatenation step of `merge_videos`. -/
def merge_cmd (list_file merged : Path) : List String :=
  ["ffmpeg", "-f", "concat", "-safe", "0", "-i", list_file, "-c", "copy", "-y", merged]

/-- Byte-for-byte string prefix test (the kernel-computable counterpart of
`str.startswith`). -/
def beginsWith (s pre : String) : Bool :=
  List.isPrefixOf pre.data s.data

/-- `os.path.abspath` relative to a fixed working directory: absolute paths
are returned unchanged, relative ones are resolved against `cwd`. -/
def abspath (cwd p : String) : String :=
  if beginsWith p "/" then p else cwd ++ "/" ++ p

/-- One line of the concat manifest: `file '<absolute path>'` plus newline. -/
def manifestLine (cwd p : String) : String :=
  "file " ++ tick ++ abspath cwd p ++ tick ++ "\n"

/-- The manifest-writing loop of `merge_videos`: one `f.write` per input
path, in order, accumulating onto `acc`. -/
def writeManifest (cwd : String) (paths : List Path) (acc : String) : String :=
  match paths with
  | [] => acc
  | p :: ps => writeManifest cwd ps (acc ++ manifestLine cwd p)

/- ---------- external-tool outcome oracle ---------- -/

/-- Outcomes of the two external-tool invocations of one merge job:
whether each exits zero, and whether a failing invocation nevertheless
leaves a partially written output file behind. -/
structure PipelineOracle where
  concatOk : Bool
  concatPartial : Bool
  wmOk : Bool
  wmPartial : Bool
deriving Repr, DecidableEq

/- ---------- apply_watermark ---------- -/

/-- `apply_watermark(input_path, output_path)`: runs the watermark ffmpeg
command; on non-zero exit it logs and raises. Returns the filesystem, the
emitted events, and the Python result. -/
def apply_watermark (po : PipelineOracle) (input output : Path) (fs : FS) :
    FS × List Event × Except PyErr Unit :=
  let ev := [Event.logInfo ("Applying watermark to " ++ input),
             Event.runSub (watermark_cmd input output)]
  if po.wmOk then
    (fs.writeFile output "ffmpeg-watermarked", ev, Except.ok ())
  else
    let fs' := if po.wmPartial then fs.writeFile output "ffmpeg-partial" else fs
    (fs', ev ++ [Event.logError "FFmpeg watermark error: stderr",
                 Event.logError ("Error applying watermark: " ++ PyErr.msg .watermarkFailed)],
     Except.error PyErr.watermarkFailed)

/- ---------- merge_videos ---------- -/

/-- Result of one `merge_videos` call: final filesystem, emitted events,
advanced fresh-name counter, the Python result (final path or raised error),
and — for stating properties — the three generated scratch paths and the
manifest content that was written. -/
structure MergeResult where
  fs : FS
  events : List Event
  fresh : Nat
  result : Except PyErr Path
  list_file : Path
  merged_path : Path
  watermarked_path : Path
  manifestWritten : String

/-- `merge_videos(video_paths, user_id)`: writes the concat manifest, runs
the concatenation, on success runs the watermark stage, and in a `finally`
block removes the manifest. Unique names come from the `fresh` counter
(standing in for `uuid.uuid4()`). -/
def merge_videos (cwd : String) (po : PipelineOracle) (video_paths : List Path)
    (uid : Nat) (fs : FS) (fresh : Nat) : MergeResult :=
  let lf := inDir uid ("list_" ++ toString fresh ++ ".txt")
  let mp := inDir uid ("merged_" ++ toString (fresh + 1) ++ ".mp4")
  let wp := inDir uid ("watermarked_" ++ toString (fresh + 2) ++ ".mp4")
  let manifest := writeManifest cwd video_paths ""
  let fs1 := fs.writeFile lf manifest
  let ev1 := [Event.logInfo ("Merging " ++ toString video_paths.length
                ++ " videos for user " ++ toString uid),
              Event.runSub (merge_cmd lf mp)]
  if po.concatOk then
    let fs2 := fs1.writeFile mp "ffmpeg-merged"
    match apply_watermark po mp wp fs2 with
    | (fs3, ev2, Except.ok _) =>
      { fs := fs3.removeFile lf, events := ev1 ++ ev2, fresh := fresh + 3,
        result := Except.ok wp, list_file := lf, merged_path := mp,
        watermarked_path := wp, manifestWritten := manifest }
    | (fs3, ev2, Except.error e) =>
      { fs := fs3.removeFile lf,
        events := ev1 ++ ev2 ++ [Event.logError ("Error in merge_videos: " ++ e.msg)],
        fresh := fresh + 3, result := Except.error e, list_file := lf,
        merged_path := mp, watermarked_path := wp, manifestWritten := manifest }
  else
    let fs2 := if po.concatPartial then fs1.writeFile mp "ffmpeg-partial" else fs1
    { fs := fs2.removeFile lf,
      events := ev1 ++ [Event.logError "FFmpeg merge error: stderr",
                        Event.logError ("Error in merge_videos: " ++ PyErr.msg .mergeFailed)],
      fresh := fresh + 3, result := Except.error PyErr.mergeFailed, list_file := lf,
      merged_path := mp, watermarked_path := wp, manifestWritten := manifest }

/- ---------- clean_user_videos ---------- -/

/-- Running state of one `clean_user_videos` call: the filesystem, the
paths on which a removal call (`os.remove` or `unlink`) has been attempted,
and the emitted events. -/
structure CleanState where
  fs : FS
  calls : List Path
  events : List Event

/-- The `for path in video_paths` loop: existence check, then `os.remove`.
A failing removal raises, carrying the state at the raise point (the failed
call is recorded as attempted). -/
def deleteLoop (fail : Path → Bool) : List Path → CleanState → Except (PyErr × CleanState) CleanState
  | [], s => Except.ok s
  | p :: ps, s =>
    if s.fs.hasFile p then
      if fail p then
        Except.error (PyErr.removeFailed p, { s with calls := s.calls ++ [p] })
      else
        deleteLoop fail ps
          { fs := s.fs.removeFile p, calls := s.calls ++ [p],
            events := s.events ++ [Event.logInfo ("Removed video file: " ++ p)] }
    else deleteLoop fail ps s

/-- `if result_path and os.path.exists(result_path): os.remove(result_path)`. -/
def deleteResult (fail : Path → Bool) (result_path : Option Path) (s : CleanState) :
    Except (PyErr × CleanState) CleanState :=
  match result_path with
  | none => Except.ok s
  | some p =>
    if s.fs.hasFile p then
      if fail p then
        Except.error (PyErr.removeFailed p, { s with calls := s.calls ++ [p] })
      else
        Except.ok { fs := s.fs.removeFile p, calls := s.calls ++ [p],
                    events := s.events ++ [Event.logInfo ("Removed result file: " ++ p)] }
    else Except.ok s

/-- The files `user_dir.glob("*")` yields: every entry under the user's
scratch directory. -/
def globUserDir (fs : FS) (uid : Nat) : List Path :=
  (fs.entries.filter (fun e => beginsWith e.1 (userDir uid))).map (fun e => e.1)

/-- The sweep loop over the globbed files: each `unlink` is wrapped in its
own `try/except: pass`, so a failure is swallowed and the loop continues. -/
def sweepLoop (fail : Path → Bool) : List Path → CleanState → CleanState
  | [], s => s
  | p :: ps, s =>
    if fail p then
      sweepLoop fail ps { s with calls := s.calls ++ [p] }
    else
      sweepLoop fail ps
        { fs := s.fs.removeFile p, calls := s.calls ++ [p],
          events := s.events ++ [Event.logInfo ("Removed temporary file: " ++ p)] }

/-- The body of the outer `try` of `clean_user_videos`: explicit deletions,
result-file deletion, then the directory sweep. -/
def cleanBody (fail : Path → Bool) (uid : Nat) (video_paths : List Path)
    (result_path : Option Path) (s0 : CleanState) : Except (PyErr × CleanState) CleanState :=
  match deleteLoop fail video_paths s0 with
  | Except.error e => Except.error e
  | Except.ok s1 =>
    match deleteResult fail result_path s1 with
    | Except.error e => Except.error e
    | Except.ok s2 => Except.ok (sweepLoop fail (globUserDir s2.fs uid) s2)

/-- `clean_user_videos(user_id, video_paths, result_path)`: the body wrapped
in `except Exception as e: logger.error(...)`, which converts any raised
error into a log line and a normal return. -/
def clean_user_videos (fail : Path → Bool) (uid : Nat) (video_paths : List Path)
    (result_path : Option Path) (fs : FS) : CleanState :=
  match cleanBody fail uid video_paths result_path ⟨fs, [], []⟩ with
  | Except.ok s => s
  | Except.error (e, s) =>
    { s with events := s.events ++ [Event.logError ("Error cleaning up user videos: " ++ e.msg)] }

/-- `clean_user_videos` viewed with Python propagation semantics: an
`Except.error` outcome would mean an exception escaping to the caller. -/
def clean_user_videos_E (fail : Path → Bool) (uid : Nat) (video_paths : List Path)
    (result_path : Option Path) (fs : FS) : Except PyErr CleanState :=
  match cleanBody fail uid video_paths result_path ⟨fs, [], []⟩ with
  | Except.ok s => Except.ok s
  | Except.error (e, s) =>
    Except.ok { s with events := s.events ++ [Event.logError ("Error cleaning up user videos: " ++ e.msg)] }

/- ---------- bot state and handlers (bot.py) ---------- -/

/-- The bot's state: scratch filesystem, the `user_videos` mapping, the
event trace so far, and the fresh-name counter. -/
structure BotState where
  fs : FS
  user_videos : List (Nat × List Path)
  events : List Event
  fresh : Nat

/-- `user_videos.get(uid)`: `none` when the user has no entry. -/
def getUser (m : List (Nat × List Path)) (uid : Nat) : Option (List Path) :=
  (m.find? (fun e => e.1 == uid)).map (fun e => e.2)

/-- `user_videos[uid] = l`, creating the entry when absent. -/
def setUser (m : List (Nat × List Path)) (uid : Nat) (l : List Path) :
    List (Nat × List Path) :=
  if (m.find? (fun e => e.1 == uid)).isSome then
    m.map (fun e => if e.1 == uid then (uid, l) else e)
  else m ++ [(uid, l)]

/-- The 50 MB size limit in bytes: `file_size / (1024*1024) > 50` holds
exactly when `file_size > 50 * 1024 * 1024` (division by `2^20` is exact in
binary floating point at these magnitudes). -/
def MAX_BYTES : Nat := 50 * 1024 * 1024

def tooLargeText : String :=
  "⚠️ This video is too large (over 50MB). Please send smaller videos."

def downloadingText : String := "📥 Downloading your video..."

/-- The status edit after a stored upload, reporting the new pending count. -/
def savedText (n : Nat) : String :=
  "✅ Video " ++ toString n ++ " saved successfully!\n\nYou have uploaded "
    ++ toString n ++ " video(s). Send more or type /merge to combine them."

def videoErrorText : String :=
  "❌ There was an error processing your video. Please try again."

def need2Text : String := "⚠️ Please send at least 2 videos before merging."

def mergingText : String :=
  "🔄 Merging your videos and adding watermark...\nThis may take a while depending on the size of your videos."

def mergeCompleteText : String := "✅ Merge complete! Sending your video..."

def mergedCaption : String := "🎬 Here\x27s your merged video with watermark!"

def mergeSentText : String := "✅ Your videos have been merged and sent!"

def mergeErrorText : String :=
  "❌ There was an error merging your videos. Please try again or /reset and start over."

def clearedText : String := "🧹 Your video list has been cleared."

def nothingToClearText : String := "ℹ️ You don\x27t have any videos to clear."

/-- `store_video(telegram_file, user_id)`: persists the downloaded bytes at
a fresh path in the user's directory and returns that path. -/
def store_video (uid : Nat) (content : String) (st : BotState) : Path × BotState :=
  let p := inDir uid (toString st.fresh ++ ".mp4")
  (p, { st with
          fs := st.fs.writeFile p content
          fresh := st.fresh + 1
          events := st.events ++ [Event.logInfo ("Stored video for user " ++ toString uid ++ " at " ++ p)] })

/-- `handle_video(update, context)`: size check, download-and-store, append
to the user's pending list (creating it on first upload), report the new
count. `size` is the declared file size in bytes; `downloadOk` is whether
the download from the gateway succeeds. -/
def handle_video (size : Nat) (downloadOk : Bool) (content : String) (uid : Nat)
    (st : BotState) : BotState :=
  if size > MAX_BYTES then
    { st with events := st.events ++ [Event.reply tooLargeText] }
  else
    let st1 := { st with events := st.events ++ [Event.reply downloadingText] }
    if downloadOk then
      let pr := store_video uid content st1
      let newList := (getUser pr.2.user_videos uid).getD [] ++ [pr.1]
      { pr.2 with
          user_videos := setUser pr.2.user_videos uid newList
          events := pr.2.events ++ [Event.editStatus (savedText newList.length)] }
    else
      { st1 with events := st1.events
          ++ [Event.logError ("Error handling video: " ++ PyErr.msg .transportFailed),
              Event.reply videoErrorText] }

/-- `merge_command(update, context)`: precondition check, merge pipeline,
delivery, cleanup, with the whole post-precondition part wrapped in a
`try/except` that logs and replies a generic failure message. `sendOk` is
whether delivering the result over the gateway succeeds; `fail` says which
file removals raise. -/
def merge_command (cwd : String) (po : PipelineOracle) (sendOk : Bool)
    (fail : Path → Bool) (uid : Nat) (st : BotState) : BotState :=
  match getUser st.user_videos uid with
  | none => { st with events := st.events ++ [Event.reply need2Text] }
  | some l =>
    if l.length < 2 then
      { st with events := st.events ++ [Event.reply need2Text] }
    else
      let st1 := { st with events := st.events ++ [Event.reply mergingText] }
      let mr := merge_videos cwd po l uid st1.fs st1.fresh
      let st2 := { st1 with fs := mr.fs, fresh := mr.fresh, events := st1.events ++ mr.events }
      match mr.result with
      | Except.error e =>
        { st2 with events := st2.events
            ++ [Event.logError ("Error merging videos: " ++ e.msg),
                Event.reply mergeErrorText] }
      | Except.ok result_path =>
        let st3 := { st2 with events := st2.events ++ [Event.editStatus mergeCompleteText] }
        if st3.fs.hasFile result_path then
          if sendOk then
            let st4 := { st3 with events := st3.events
                ++ [Event.sendVideo result_path (st3.fs.hasFile result_path) mergedCaption] }
            let cs := clean_user_videos fail uid l (some result_path) st4.fs
            { st4 with
                fs := cs.fs
                user_videos := setUser st4.user_videos uid []
                events := st4.events ++ cs.events ++ [Event.editStatus mergeSentText] }
          else
            { st3 with events := st3.events
                ++ [Event.logError ("Error merging videos: " ++ PyErr.msg .transportFailed),
                    Event.reply mergeErrorText] }
        else
          { st3 with events := st3.events
              ++ [Event.logError "Error merging videos: file not found",
                  Event.reply mergeErrorText] }

/-- `reset_command(update, context)`: on a non-empty pending list, clean all
pending files and clear the entry; otherwise reply an informational no-op
message. -/
def reset_command (fail : Path → Bool) (uid : Nat) (st : BotState) : BotState :=
  match getUser st.user_videos uid with
  | some l =>
    if l.isEmpty then
      { st with events := st.events ++ [Event.reply nothingToClearText] }
    else
      let cs := clean_user_videos fail uid l none st.fs
      { st with
          fs := cs.fs
          user_videos := setUser st.user_videos uid []
          events := st.events ++ cs.events ++ [Event.reply clearedText] }
  | none => { st with events := st.events ++ [Event.reply nothingToClearText] }


/- ---------- lemmas: filesystem model ---------- -/

theorem hasFile_removeFile (fs : FS) (p q : Path) :
    (fs.removeFile p).hasFile q = (fs.hasFile q && !(decide (q = p))) := by
  rcases fs with ⟨entries⟩
  unfold FS.hasFile FS.removeFile
  induction entries with
  | nil => simp
  | cons e es ih =>
    by_cases h1 : e.1 = q <;> by_cases h2 : q = p <;> by_cases h3 : e.1 = p <;>
      simp_all [List.filter_cons, List.any_cons, bne]

theorem hasFile_writeFile (fs : FS) (p : Path) (c : String) (q : Path) :
    (fs.writeFile p c).hasFile q = (decide (q = p) || fs.hasFile q) := by
  show ((p, c) :: (fs.removeFile p).entries).any (fun e => e.1 == q) = _
  rw [List.any_cons]
  have h0 : (fs.removeFile p).entries.any (fun e => e.1 == q) = (fs.removeFile p).hasFile q := rfl
  rw [h0, hasFile_removeFile]
  by_cases h : q = p
  · subst h
    simp
  · have h2 : p ≠ q := fun hh => h hh.symm
    simp [h, h2]

/- ---------- lemmas: strings and generated paths ---------- -/

theorem string_append_left_cancel {d s t : String} (h : d ++ s = d ++ t) : s = t := by
  apply String.ext
  have h2 := congrArg String.data h
  rw [String.data_append, String.data_append] at h2
  exact List.append_cancel_left h2

theorem inDir_inj {uid : Nat} {a b : String} (h : inDir uid a = inDir uid b) : a = b :=
  string_append_left_cancel h

theorem ne_of_head {s t : String} {c d : Char} (hs : s.data.head? = some c)
    (ht : t.data.head? = some d) (hcd : c ≠ d) : s ≠ t := by
  intro h
  rw [h, ht] at hs
  exact hcd (Option.some.inj hs).symm

theorem inDir_tag_ne (uid : Nat) {a b : String} (h : a ≠ b) :
    inDir uid a ≠ inDir uid b :=
  fun he => h (inDir_inj he)

theorem listName_ne_mergedName (x y : String) :
    ("list_" ++ x) ++ ".txt" ≠ ("merged_" ++ y) ++ ".mp4" :=
  ne_of_head rfl rfl (by decide)

theorem listName_ne_wmName (x y : String) :
    ("list_" ++ x) ++ ".txt" ≠ ("watermarked_" ++ y) ++ ".mp4" :=
  ne_of_head rfl rfl (by decide)

theorem mergedName_ne_wmName (x y : String) :
    ("merged_" ++ x) ++ ".mp4" ≠ ("watermarked_" ++ y) ++ ".mp4" :=
  ne_of_head rfl rfl (by decide)

/- ---------- lemmas: manifest writing ---------- -/

theorem join_cons (s : String) (l : List String) :
    String.join (s :: l) = s ++ String.join l := by
  simp [String.join_eq]
  rfl

theorem writeManifest_eq (cwd : String) (l : List Path) (acc : String) :
    writeManifest cwd l acc = acc ++ String.join (l.map (manifestLine cwd)) := by
  induction l generalizing acc with
  | nil => simp [writeManifest, String.join]
  | cons p ps ih =>
    rw [writeManifest, ih, List.map_cons, join_cons, ← String.append_assoc]

/- ---------- lemmas: cleanup loops ---------- -/

theorem deleteLoop_noFail (l : List Path) (s : CleanState) :
    ∃ s2, deleteLoop (fun _ => false) l s = Except.ok s2 ∧
      (∀ q, s2.fs.hasFile q = (s.fs.hasFile q && !(decide (q ∈ l)))) := by
  induction l generalizing s with
  | nil => exact ⟨s, rfl, by simp⟩
  | cons p ps ih =>
    rw [deleteLoop]
    by_cases h : s.fs.hasFile p = true
    · rw [if_pos h, if_neg (by simp)]
      obtain ⟨s2, h1, h2⟩ := ih
        { fs := s.fs.removeFile p, calls := s.calls ++ [p],
          events := s.events ++ [Event.logInfo ("Removed video file: " ++ p)] }
      refine ⟨s2, h1, fun q => ?_⟩
      rw [h2]
      dsimp only
      rw [hasFile_removeFile]
      by_cases hq : q = p <;> simp [hq]
    · rw [if_neg h]
      obtain ⟨s2, h1, h2⟩ := ih s
      refine ⟨s2, h1, fun q => ?_⟩
      rw [h2]
      by_cases hq : q = p
      · subst hq
        simp [Bool.not_eq_true] at h
        simp [h]
      · simp [hq]

theorem deleteResult_noFail (res : Option Path) (s : CleanState) :
    ∃ s2, deleteResult (fun _ => false) res s = Except.ok s2 ∧
      (∀ q, s2.fs.hasFile q = (s.fs.hasFile q && !(decide (res = some q)))) := by
  cases res with
  | none => exact ⟨s, rfl, by simp⟩
  | some p =>
    rw [deleteResult]
    by_cases h : s.fs.hasFile p = true
    · rw [if_pos h, if_neg (by simp)]
      refine ⟨_, rfl, fun q => ?_⟩
      show (s.fs.removeFile p).hasFile q = _
      rw [hasFile_removeFile]
      by_cases hq : q = p
      · subst hq
        simp
      · simp [hq, Ne.symm hq]
    · rw [if_neg h]
      refine ⟨s, rfl, fun q => ?_⟩
      by_cases hq : q = p
      · subst hq
        simp [Bool.not_eq_true] at h
        simp [h]
      · simp [hq, Ne.symm hq]

theorem sweepLoop_calls (fail : Path → Bool) (ps : List Path) (s : CleanState) :
    (sweepLoop fail ps s).calls = s.calls ++ ps := by
  induction ps generalizing s with
  | nil => simp [sweepLoop]
  | cons p ps ih =>
    rw [sweepLoop]
    by_cases h : fail p = true
    · rw [if_pos h, ih]
      simp
    · rw [if_neg h, ih]
      simp

theorem sweepLoop_noFail (ps : List Path) (s : CleanState) :
    ∀ q, (sweepLoop (fun _ => false) ps s).fs.hasFile q =
      (s.fs.hasFile q && !(decide (q ∈ ps))) := by
  induction ps generalizing s with
  | nil => simp [sweepLoop]
  | cons p ps ih =>
    intro q
    rw [sweepLoop, if_neg (by simp)]
    rw [ih]
    dsimp only
    rw [hasFile_removeFile]
    by_cases hq : q = p <;> simp [hq]

theorem mem_globUserDir (fs : FS) (uid : Nat) (q : Path) :
    decide (q ∈ globUserDir fs uid) = (fs.hasFile q && beginsWith q (userDir uid)) := by
  have hiff : q ∈ globUserDir fs uid ↔
      (fs.hasFile q = true ∧ beginsWith q (userDir uid) = true) := by
    simp only [globUserDir, FS.hasFile, List.mem_map, List.mem_filter, List.any_eq_true,
      beq_iff_eq]
    constructor
    · rintro ⟨e, ⟨he, hpre⟩, rfl⟩
      exact ⟨⟨e, he, rfl⟩, hpre⟩
    · rintro ⟨⟨e, he, rfl⟩, hpre⟩
      exact ⟨e, ⟨he, hpre⟩, rfl⟩
  by_cases h1 : fs.hasFile q = true <;> by_cases h2 : beginsWith q (userDir uid) = true <;>
    simp_all [hiff]

theorem clean_user_videos_noFail (uid : Nat) (l : List Path) (res : Option Path) (fs : FS) :
    ∀ q, (clean_user_videos (fun _ => false) uid l res fs).fs.hasFile q =
      (((fs.hasFile q && !(decide (q ∈ l))) && !(decide (res = some q)))
        && !(beginsWith q (userDir uid))) := by
  intro q
  unfold clean_user_videos cleanBody
  obtain ⟨s1, h1, h1q⟩ := deleteLoop_noFail l ⟨fs, [], []⟩
  obtain ⟨s2, h2, h2q⟩ := deleteResult_noFail res s1
  rw [h1]
  dsimp only
  rw [h2]
  dsimp only
  rw [sweepLoop_noFail, mem_globUserDir, h2q, h1q]
  by_cases ha : fs.hasFile q = true <;>
    by_cases hb : q ∈ l <;>
      by_cases hc : res = some q <;>
        by_cases hd : beginsWith q (userDir uid) = true <;>
          simp_all


/- ---------- lemmas: session map ---------- -/


theorem getUser_cons_ne (e : Nat × List Path) (es : List (Nat × List Path)) (uid : Nat)
    (h : ¬ e.1 = uid) : getUser (e :: es) uid = getUser es uid := by
  simp [getUser, List.find?_cons, h]

theorem find?_none_getUser (m : List (Nat × List Path)) (uid : Nat) (l : List Path)
    (h : m.find? (fun x => x.1 == uid) = none) :
    getUser (m ++ [(uid, l)]) uid = some l := by
  induction m with
  | nil => simp [getUser, List.find?]
  | cons e es ih =>
    by_cases he : e.1 = uid
    · simp [List.find?_cons, he] at h
    · rw [List.cons_append, getUser_cons_ne _ _ _ he]
      apply ih
      simpa [List.find?_cons, he] using h

theorem find?_some_getUser (m : List (Nat × List Path)) (uid : Nat) (l : List Path)
    (h : (m.find? (fun x => x.1 == uid)).isSome = true) :
    getUser (m.map (fun e => if e.1 == uid then (uid, l) else e)) uid = some l := by
  induction m with
  | nil => simp [List.find?] at h
  | cons e es ih =>
    by_cases he : e.1 = uid
    · simp [getUser, List.find?_cons, he]
    · rw [List.map_cons, if_neg (by simpa using he), getUser_cons_ne _ _ _ he]
      apply ih
      simpa [List.find?_cons, he] using h

theorem getUser_setUser (m : List (Nat × List Path)) (uid : Nat) (l : List Path) :
    getUser (setUser m uid l) uid = some l := by
  unfold setUser
  by_cases h : (m.find? (fun x => x.1 == uid)).isSome = true
  · rw [if_pos h]
    exact find?_some_getUser m uid l h
  · rw [if_neg h]
    apply find?_none_getUser
    rcases hf : m.find? (fun x => x.1 == uid) with _ | v
    · exact hf
    · rw [hf] at h
      simp at h
theorem merge_videos_names (cwd : String) (po : PipelineOracle) (l : List Path)
    (uid : Nat) (fs : FS) (n : Nat) :
    (merge_videos cwd po l uid fs n).list_file = inDir uid ("list_" ++ toString n ++ ".txt") ∧
    (merge_videos cwd po l uid fs n).merged_path = inDir uid ("merged_" ++ toString (n + 1) ++ ".mp4") ∧
    (merge_videos cwd po l uid fs n).watermarked_path = inDir uid ("watermarked_" ++ toString (n + 2) ++ ".mp4") ∧
    (merge_videos cwd po l uid fs n).manifestWritten = writeManifest cwd l "" := by
  rcases po with ⟨co, cp, wo, wpart⟩
  cases co <;> cases cp <;> cases wo <;> cases wpart <;>
    simp [merge_videos, apply_watermark]

theorem merge_videos_success (cwd : String) (po : PipelineOracle) (l : List Path)
    (uid : Nat) (fs : FS) (n : Nat) (hc : po.concatOk = true) (hw : po.wmOk = true) :
    (merge_videos cwd po l uid fs n).result
      = Except.ok ((merge_videos cwd po l uid fs n).watermarked_path) ∧
    (∀ q, (merge_videos cwd po l uid fs n).fs.hasFile q =
      ((decide (q = (merge_videos cwd po l uid fs n).watermarked_path)
        || (decide (q = (merge_videos cwd po l uid fs n).merged_path) || fs.hasFile q))
        && !decide (q = (merge_videos cwd po l uid fs n).list_file))) := by
  unfold merge_videos apply_watermark
  simp only [hc, hw, if_true]
  refine ⟨trivial, fun q => ?_⟩
  rw [hasFile_removeFile, hasFile_writeFile, hasFile_writeFile, hasFile_writeFile]
  by_cases hq : q = inDir uid ("list_" ++ toString n ++ ".txt") <;> simp [hq]
theorem merge_videos_concatFail (cwd : String) (po : PipelineOracle) (l : List Path)
    (uid : Nat) (fs : FS) (n : Nat) (hc : po.concatOk = false) :
    (merge_videos cwd po l uid fs n).result = Except.error PyErr.mergeFailed ∧
    ((merge_videos cwd po l uid fs n).events.filter isRunSub)
      = [Event.runSub (merge_cmd (merge_videos cwd po l uid fs n).list_file
           (merge_videos cwd po l uid fs n).merged_path)] ∧
    (∀ q, (merge_videos cwd po l uid fs n).fs.hasFile q =
      (((po.concatPartial && decide (q = (merge_videos cwd po l uid fs n).merged_path))
          || fs.hasFile q)
        && !decide (q = (merge_videos cwd po l uid fs n).list_file))) := by
  unfold merge_videos
  simp only [hc, Bool.false_eq_true, if_false, isRunSub]
  refine ⟨trivial, by simp [isRunSub], fun q => ?_⟩
  cases hp : po.concatPartial
  · simp only [Bool.false_eq_true, if_false]
    rw [hasFile_removeFile, hasFile_writeFile]
    by_cases hq : q = inDir uid ("list_" ++ toString n ++ ".txt") <;> simp [hq]
  · simp only [if_true]
    rw [hasFile_removeFile, hasFile_writeFile, hasFile_writeFile]
    by_cases hq : q = inDir uid ("list_" ++ toString n ++ ".txt") <;> simp [hq]

theorem merge_videos_events_invisible (cwd : String) (po : PipelineOracle) (l : List Path)
    (uid : Nat) (fs : FS) (n : Nat) :
    (merge_videos cwd po l uid fs n).events.filter Event.visible = [] := by
  rcases po with ⟨co, cp, wo, wpart⟩
  cases co <;> cases cp <;> cases wo <;> cases wpart <;>
    simp [merge_videos, apply_watermark, Event.visible]

theorem merge_videos_fail_result (cwd : String) (po : PipelineOracle) (l : List Path)
    (uid : Nat) (fs : FS) (n : Nat) (h : po.concatOk = false ∨ po.wmOk = false) :
    ∃ e, (merge_videos cwd po l uid fs n).result = Except.error e := by
  rcases po with ⟨co, cp, wo, wpart⟩
  cases co <;> cases cp <;> cases wo <;> cases wpart <;>
    simp_all [merge_videos, apply_watermark]

theorem deleteLoop_abort (fail : Path → Bool) (l1 : List Path) (p : Path) (l2 : List Path)
    (s : CleanState) (h1 : ∀ q ∈ l1, fail q = false) (hp : fail p = true)
    (hex : ∀ q ∈ l1 ++ [p], s.fs.hasFile q = true) (hnd : (l1 ++ [p]).Nodup) :
    ∃ s2, deleteLoop fail (l1 ++ p :: l2) s = Except.error (PyErr.removeFailed p, s2) ∧
      s2.calls = s.calls ++ (l1 ++ [p]) := by
  induction l1 generalizing s with
  | nil =>
    rw [List.nil_append, deleteLoop, if_pos (hex p (by simp)), if_pos hp]
    exact ⟨_, rfl, by simp⟩
  | cons a l1 ih =>
    rw [List.cons_append, deleteLoop, if_pos (hex a (by simp)),
      if_neg (by simp [h1 a (by simp)])]
    have hand : a ∉ l1 ++ [p] := by
      have := hnd
      simp only [List.cons_append, List.nodup_cons] at this
      exact this.1
    obtain ⟨s2, hrec, hcalls⟩ := ih
      { fs := s.fs.removeFile a, calls := s.calls ++ [a],
        events := s.events ++ [Event.logInfo ("Removed video file: " ++ a)] }
      (fun q hq => h1 q (by simp [hq]))
      (fun q hq => by
        dsimp only
        rw [hasFile_removeFile]
        have hqa : ¬ q = a := fun hh => hand (hh ▸ hq)
        simp [hqa, hex q (by
          rcases List.mem_append.mp hq with h' | h'
          · exact List.mem_append.mpr (Or.inl (by simp [h']))
          · exact List.mem_append.mpr (Or.inr h'))])
      (by
        have := hnd
        simp only [List.cons_append, List.nodup_cons] at this
        exact this.2)
    refine ⟨s2, hrec, ?_⟩
    rw [hcalls]
    simp

theorem clean_user_videos_abort_calls (fail : Path → Bool) (uid : Nat)
    (l1 : List Path) (p : Path) (l2 : List Path) (res : Option Path) (fs : FS)
    (h1 : ∀ q ∈ l1, fail q = false) (hp : fail p = true)
    (hex : ∀ q ∈ l1 ++ [p], fs.hasFile q = true) (hnd : (l1 ++ [p]).Nodup) :
    (clean_user_videos fail uid (l1 ++ p :: l2) res fs).calls = l1 ++ [p] := by
  obtain ⟨s2, habort, hcalls⟩ := deleteLoop_abort fail l1 p l2 ⟨fs, [], []⟩ h1 hp hex hnd
  unfold clean_user_videos cleanBody
  rw [habort]
  dsimp only
  rw [hcalls]
  simp
/- ---------- claim theorems ---------- -/

/-- C1: a merge request issued while the user's pending list has fewer than
two entries (including no entry at all) only appends the precondition-error
reply: the filesystem, the pending map, the fresh counter are untouched and
no other event (in particular no subprocess launch and no file write)
occurs. -/
theorem merge_underfull_precondition (cwd : String) (po : PipelineOracle) (sendOk : Bool)
    (fail : Path → Bool) (uid : Nat) (st : BotState)
    (h : getUser st.user_videos uid = none ∨
      ∃ l, getUser st.user_videos uid = some l ∧ l.length < 2) :
    merge_command cwd po sendOk fail uid st
      = { st with events := st.events ++ [Event.reply need2Text] } := by
  rcases h with h | ⟨l, h, hl⟩
  · unfold merge_command
    rw [h]
  · unfold merge_command
    rw [h]
    dsimp only
    rw [if_pos hl]

theorem merge_underfull_precondition_check :
    merge_command "/cwd" ⟨true, false, true, false⟩ true (fun _ => false) 1
        ⟨⟨[]⟩, [(1, ["./temp/1/a.mp4"])], [], 0⟩
      = { fs := ⟨[]⟩, user_videos := [(1, ["./temp/1/a.mp4"])],
          events := [Event.reply need2Text], fresh := 0 } :=
  merge_underfull_precondition "/cwd" ⟨true, false, true, false⟩ true (fun _ => false) 1
    ⟨⟨[]⟩, [(1, ["./temp/1/a.mp4"])], [], 0⟩
    (Or.inr ⟨["./temp/1/a.mp4"], rfl, by decide⟩)

/-- C6: the concat manifest written by `merge_videos` is exactly one
`file '<absolute path>'` line per input, in input order, and the manifest
file is no longer on the filesystem when the call returns, on success and
on failure alike. -/
theorem manifest_content_and_scoped_delete (cwd : String) (po : PipelineOracle)
    (l : List Path) (uid : Nat) (fs : FS) (n : Nat) :
    (merge_videos cwd po l uid fs n).manifestWritten
      = String.join (l.map (fun p => "file " ++ tick ++ abspath cwd p ++ tick ++ "\n")) ∧
    (merge_videos cwd po l uid fs n).fs.hasFile (merge_videos cwd po l uid fs n).list_file
      = false := by
  constructor
  · have h := (merge_videos_names cwd po l uid fs n).2.2.2
    rw [h, writeManifest_eq]
    have hfun : manifestLine cwd = fun p => "file " ++ tick ++ abspath cwd p ++ tick ++ "\n" := rfl
    rw [hfun]
    simp
  · rcases po with ⟨co, cp, wo, wpart⟩
    cases co <;> cases cp <;> cases wo <;> cases wpart <;>
      (simp [merge_videos, apply_watermark]; rw [hasFile_removeFile]; simp)

/-- C7: an inbound video whose declared size exceeds 50 MiB is rejected
with the size-limit reply and nothing else happens (no download, no state
change); otherwise, with the download succeeding, the file is persisted at
a fresh path in the user's scratch directory, that path is appended to the
user's pending list (created on first upload), and the new pending count is
reported in the status edit. -/
theorem upload_size_gate_and_append (size : Nat) (dOk : Bool) (content : String)
    (uid : Nat) (st : BotState) :
    (size > MAX_BYTES →
      handle_video size dOk content uid st
        = { st with events := st.events ++ [Event.reply tooLargeText] }) ∧
    (size ≤ MAX_BYTES → dOk = true →
      handle_video size dOk content uid st
        = { st with
              fs := st.fs.writeFile (inDir uid (toString st.fresh ++ ".mp4")) content
              fresh := st.fresh + 1
              user_videos := setUser st.user_videos uid
                ((getUser st.user_videos uid).getD []
                  ++ [inDir uid (toString st.fresh ++ ".mp4")])
              events := st.events ++ [Event.reply downloadingText,
                Event.logInfo ("Stored video for user " ++ toString uid ++ " at "
                  ++ inDir uid (toString st.fresh ++ ".mp4")),
                Event.editStatus (savedText ((getUser st.user_videos uid).getD []
                  ++ [inDir uid (toString st.fresh ++ ".mp4")]).length)] } ∧
      getUser (handle_video size dOk content uid st).user_videos uid
        = some ((getUser st.user_videos uid).getD []
            ++ [inDir uid (toString st.fresh ++ ".mp4")])) := by
  constructor
  · intro hgt
    unfold handle_video
    rw [if_pos hgt]
  · intro hle hdok
    subst hdok
    unfold handle_video store_video
    rw [if_neg (by exact Nat.not_lt.mpr hle)]
    dsimp only
    rw [if_pos rfl]
    constructor
    · simp [List.append_assoc]
    · rw [getUser_setUser]
theorem upload_size_gate_and_append_check :
    (handle_video 52428801 true "V" 5 ⟨⟨[]⟩, [], [], 0⟩
      = { fs := ⟨[]⟩, user_videos := [], events := [Event.reply tooLargeText], fresh := 0 }) ∧
    getUser (handle_video 52428800 true "V" 5 ⟨⟨[]⟩, [], [], 0⟩).user_videos 5
      = some [inDir 5 "0.mp4"] :=
  ⟨(upload_size_gate_and_append 52428801 true "V" 5 ⟨⟨[]⟩, [], [], 0⟩).1 (by decide),
   ((upload_size_gate_and_append 52428800 true "V" 5 ⟨⟨[]⟩, [], [], 0⟩).2 (by decide) rfl).2⟩

/-- C8 (counterexample): the anchor lookup table has no key
`"bottom-center"`: that configured anchor is treated as unknown and falls
back to the bottom-right coordinates instead of the bottom-centred ones
(whose key in the table is `"bottom"`). -/
theorem watermark_bottom_center_unsupported :
    position_map "bottom-center" = none ∧
    position_coords "bottom-center" = bottomRightCoords ∧
    position_map "bottom" = some "x=(w-text_w)/2:y=h-th-10" ∧
    position_coords "bottom-center" ≠ "x=(w-text_w)/2:y=h-th-10" := by
  refine ⟨by decide, by decide, by decide, by decide⟩

/-- C8 (amended): the watermark filter is exactly two text-draw operations
in one pass — the primary watermark text at the coordinates the anchor
table yields for the configured anchor, and the email text centred at the
top — in the fixed font, size and colour, with the fixed 2,2 shadow offset;
the table's keys are center, bottom, bottom-right, top-left and top-right,
and every other configured anchor falls back to bottom-right. -/
theorem watermark_two_ops_and_anchor_table (pos : String) :
    (filter_text pos
      = drawtextFilter WATERMARK_TEXT (position_coords pos)
        ++ ", " ++ drawtextFilter EMAIL_TEXT "x=(w-text_w)/2:y=10") ∧
    ((position_map pos).isSome = true ↔
      pos = "center" ∨ pos = "bottom" ∨ pos = "bottom-right"
        ∨ pos = "top-left" ∨ pos = "top-right") ∧
    (position_map pos = none → position_coords pos = bottomRightCoords) ∧
    position_map "center" = some "x=(w-text_w)/2:y=(h-text_h)/2" ∧
    position_map "bottom" = some "x=(w-text_w)/2:y=h-th-10" ∧
    position_map "bottom-right" = some bottomRightCoords ∧
    position_map "top-left" = some "x=10:y=10" ∧
    position_map "top-right" = some "x=w-tw-10:y=10" := by
  refine ⟨?_, ?_, ?_, by decide, by decide, by decide, by decide, by decide⟩
  · have hlit1 : (", " ++ "drawtext=text=" : String) = ", drawtext=text=" := by decide
    have chunk1 : ∀ s : String, ", " ++ ("drawtext=text=" ++ s) = ", drawtext=text=" ++ s := by
      intro s
      rw [← String.append_assoc, hlit1]
    have hlit2 : ((":" ++ "x=(w-text_w)/2:y=10" : String) ++ ":fontcolor=")
        = ":x=(w-text_w)/2:y=10:fontcolor=" := by decide
    have chunk2 : ∀ s : String,
        ":" ++ ("x=(w-text_w)/2:y=10" ++ (":fontcolor=" ++ s))
          = ":x=(w-text_w)/2:y=10:fontcolor=" ++ s := by
      intro s
      rw [← String.append_assoc, ← String.append_assoc, hlit2]
    unfold filter_text drawtextFilter
    simp only [String.append_assoc, chunk1, chunk2]
  · constructor
    · intro hsome
      unfold position_map at hsome
      by_cases h1 : pos = "center"
      · exact Or.inl h1
      rw [if_neg h1] at hsome
      by_cases h2 : pos = "bottom"
      · exact Or.inr (Or.inl h2)
      rw [if_neg h2] at hsome
      by_cases h3 : pos = "bottom-right"
      · exact Or.inr (Or.inr (Or.inl h3))
      rw [if_neg h3] at hsome
      by_cases h4 : pos = "top-left"
      · exact Or.inr (Or.inr (Or.inr (Or.inl h4)))
      rw [if_neg h4] at hsome
      by_cases h5 : pos = "top-right"
      · exact Or.inr (Or.inr (Or.inr (Or.inr h5)))
      rw [if_neg h5] at hsome
      simp at hsome
    · rintro (h | h | h | h | h) <;> subst h <;> decide
  · intro hnone
    unfold position_coords
    rw [hnone]
    rfl

theorem watermark_two_ops_check :
    position_coords "oblique" = bottomRightCoords :=
  (watermark_two_ops_and_anchor_table "oblique").2.2.1 (by decide)

/-- C9: resetting with a non-empty pending list deletes every pending file,
empties the pending list and reports the success message; resetting with an
empty or absent pending list only appends the informational reply — no
state change, no filesystem mutation. -/
theorem reset_clears_or_noop (uid : Nat) (st : BotState) :
    (∀ l, getUser st.user_videos uid = some l → l ≠ [] →
      (getUser (reset_command (fun _ => false) uid st).user_videos uid = some [] ∧
       (∀ p ∈ l, (reset_command (fun _ => false) uid st).fs.hasFile p = false) ∧
       Event.reply clearedText ∈ (reset_command (fun _ => false) uid st).events)) ∧
    ((getUser st.user_videos uid = none ∨ getUser st.user_videos uid = some []) →
      reset_command (fun _ => false) uid st
        = { st with events := st.events ++ [Event.reply nothingToClearText] }) := by
  constructor
  · intro l hl hne
    unfold reset_command
    rw [hl]
    dsimp only
    rw [if_neg (fun hemp => hne (List.isEmpty_iff.mp hemp))]
    refine ⟨getUser_setUser _ _ _, fun p hp => ?_, by simp⟩
    dsimp only
    rw [clean_user_videos_noFail]
    simp [hp]
  · rintro (h | h)
    · unfold reset_command
      rw [h]
    · unfold reset_command
      rw [h]
      rfl

theorem reset_clears_or_noop_check :
    (getUser (reset_command (fun _ => false) 1
        ⟨⟨[("./temp/1/a.mp4", "A")]⟩, [(1, ["./temp/1/a.mp4"])], [], 0⟩).user_videos 1
      = some []) ∧
    (reset_command (fun _ => false) 2 ⟨⟨[]⟩, [], [], 0⟩
      = { fs := ⟨[]⟩, user_videos := [], events := [Event.reply nothingToClearText],
          fresh := 0 }) :=
  ⟨((reset_clears_or_noop 1
      ⟨⟨[("./temp/1/a.mp4", "A")]⟩, [(1, ["./temp/1/a.mp4"])], [], 0⟩).1
      ["./temp/1/a.mp4"] rfl (by decide)).1,
   (reset_clears_or_noop 2 ⟨⟨[]⟩, [], [], 0⟩).2 (Or.inl rfl)⟩


/-- C2: when the pipeline fails (either stage), the merge handler leaves the
pending map — hence the user's pending list, same paths in the same order —
untouched, and the only user-visible messages added are the merging status
and the fixed generic failure reply; the stage-specific detail goes to the
log only. -/
theorem merge_failure_preserves_pending (cwd : String) (po : PipelineOracle) (sendOk : Bool)
    (fail : Path → Bool) (uid : Nat) (st : BotState) (l : List Path)
    (hu : getUser st.user_videos uid = some l) (hlen : 2 ≤ l.length)
    (hfail : po.concatOk = false ∨ po.wmOk = false) :
    (merge_command cwd po sendOk fail uid st).user_videos = st.user_videos ∧
    ((merge_command cwd po sendOk fail uid st).events.filter Event.visible
      = st.events.filter Event.visible
          ++ [Event.reply mergingText, Event.reply mergeErrorText]) ∧
    (∃ e : PyErr, Event.logError ("Error merging videos: " ++ e.msg)
        ∈ (merge_command cwd po sendOk fail uid st).events) := by
  obtain ⟨e, he⟩ := merge_videos_fail_result cwd po l uid st.fs st.fresh hfail
  unfold merge_command
  rw [hu]
  dsimp only
  rw [if_neg (Nat.not_lt.mpr hlen), he]
  refine ⟨rfl, ?_, ⟨e, by simp⟩⟩
  simp [List.filter_append, Event.visible, merge_videos_events_invisible]

theorem merge_failure_preserves_pending_check :
    (merge_command "/cwd" ⟨false, false, true, false⟩ true (fun _ => false) 1
        ⟨⟨[("./temp/1/a.mp4", "A"), ("./temp/1/b.mp4", "B")]⟩,
          [(1, ["./temp/1/a.mp4", "./temp/1/b.mp4"])], [], 0⟩).user_videos
      = [(1, ["./temp/1/a.mp4", "./temp/1/b.mp4"])] :=
  (merge_failure_preserves_pending "/cwd" ⟨false, false, true, false⟩ true (fun _ => false) 1
    ⟨⟨[("./temp/1/a.mp4", "A"), ("./temp/1/b.mp4", "B")]⟩,
      [(1, ["./temp/1/a.mp4", "./temp/1/b.mp4"])], [], 0⟩
    ["./temp/1/a.mp4", "./temp/1/b.mp4"] rfl (by decide) (Or.inl rfl)).1

/-- C3: a merge that succeeds end to end sends the final watermarked file
while that file still exists, and afterwards the user's pending list is
empty, every input path is gone, and no file at all remains in the user's
scratch directory. -/
theorem merge_success_delivers_then_cleans (cwd : String) (po : PipelineOracle)
    (uid : Nat) (st : BotState) (l : List Path)
    (hu : getUser st.user_videos uid = some l) (hlen : 2 ≤ l.length)
    (hc : po.concatOk = true) (hw : po.wmOk = true) :
    getUser (merge_command cwd po true (fun _ => false) uid st).user_videos uid = some [] ∧
    (∀ p ∈ l, (merge_command cwd po true (fun _ => false) uid st).fs.hasFile p = false) ∧
    (∀ q, beginsWith q (userDir uid) = true →
      (merge_command cwd po true (fun _ => false) uid st).fs.hasFile q = false) ∧
    (∃ wp, Event.sendVideo wp true mergedCaption
        ∈ (merge_command cwd po true (fun _ => false) uid st).events ∧
      (merge_command cwd po true (fun _ => false) uid st).fs.hasFile wp = false) := by
  obtain ⟨hres, hfs⟩ := merge_videos_success cwd po l uid st.fs st.fresh hc hw
  obtain ⟨hlf, hmp, hwp, -⟩ := merge_videos_names cwd po l uid st.fs st.fresh
  have hne : (merge_videos cwd po l uid st.fs st.fresh).watermarked_path
      ≠ (merge_videos cwd po l uid st.fs st.fresh).list_file := by
    rw [hwp, hlf]
    exact inDir_tag_ne uid
      (Ne.symm (listName_ne_wmName (toString st.fresh) (toString (st.fresh + 2))))
  have hsend : (merge_videos cwd po l uid st.fs st.fresh).fs.hasFile
      (merge_videos cwd po l uid st.fs st.fresh).watermarked_path = true := by
    rw [hfs]
    simp [hne]
  unfold merge_command
  rw [hu]
  dsimp only
  rw [if_neg (Nat.not_lt.mpr hlen), hres]
  dsimp only
  rw [if_pos hsend, if_pos rfl]
  refine ⟨getUser_setUser _ _ _, fun p hp => ?_, fun q hq => ?_, ?_⟩
  · dsimp only
    rw [clean_user_videos_noFail]
    simp [hp]
  · dsimp only
    rw [clean_user_videos_noFail]
    simp [hq]
  · refine ⟨(merge_videos cwd po l uid st.fs st.fresh).watermarked_path, ?_, ?_⟩
    · rw [hsend]
      simp
    · dsimp only
      rw [clean_user_videos_noFail]
      simp

theorem merge_success_delivers_then_cleans_check :
    getUser (merge_command "/cwd" ⟨true, false, true, false⟩ true (fun _ => false) 1
        ⟨⟨[("./temp/1/a.mp4", "A"), ("./temp/1/b.mp4", "B")]⟩,
          [(1, ["./temp/1/a.mp4", "./temp/1/b.mp4"])], [], 0⟩).user_videos 1
      = some [] :=
  (merge_success_delivers_then_cleans "/cwd" ⟨true, false, true, false⟩ 1
    ⟨⟨[("./temp/1/a.mp4", "A"), ("./temp/1/b.mp4", "B")]⟩,
      [(1, ["./temp/1/a.mp4", "./temp/1/b.mp4"])], [], 0⟩
    ["./temp/1/a.mp4", "./temp/1/b.mp4"] rfl (by decide) rfl rfl).1

/-- C4 (counterexample): with two existing paths in the explicit list and
the removal of the first failing, the removal of the second is never
attempted — it is not among the attempted calls and is still on disk. -/
theorem clean_skips_remaining_after_failure :
    (clean_user_videos (fun p => p == "x/a.mp4") 1 ["x/a.mp4", "x/b.mp4"] none
        ⟨[("x/a.mp4", "A"), ("x/b.mp4", "B")]⟩).calls = ["x/a.mp4"] ∧
    (clean_user_videos (fun p => p == "x/a.mp4") 1 ["x/a.mp4", "x/b.mp4"] none
        ⟨[("x/a.mp4", "A"), ("x/b.mp4", "B")]⟩).fs.hasFile "x/b.mp4" = true :=
  ⟨by decide, by decide⟩

/-- C4 (amended): partial-failure tolerance holds for the directory-sweep
loop — every swept file's unlink is attempted regardless of earlier sweep
failures — but not for the explicit path list: a failing removal there
aborts the remaining explicit removals (the failure being caught and logged
at the function boundary). -/
theorem clean_partial_failure_split :
    (∀ (fail : Path → Bool) (ps : List Path) (s : CleanState),
      (sweepLoop fail ps s).calls = s.calls ++ ps) ∧
    (∀ (fail : Path → Bool) (uid : Nat) (l1 : List Path) (p : Path) (l2 : List Path)
        (res : Option Path) (fs : FS),
      (∀ q ∈ l1, fail q = false) → fail p = true →
      (∀ q ∈ l1 ++ [p], fs.hasFile q = true) → (l1 ++ [p]).Nodup →
      (clean_user_videos fail uid (l1 ++ p :: l2) res fs).calls = l1 ++ [p]) :=
  ⟨sweepLoop_calls, clean_user_videos_abort_calls⟩

theorem clean_partial_failure_split_check :
    (sweepLoop (fun _ => true) ["x/a.mp4", "x/b.mp4"] ⟨⟨[]⟩, [], []⟩).calls
      = ["x/a.mp4", "x/b.mp4"] ∧
    (clean_user_videos (fun p => p == "x/a.mp4") 7 ["x/a.mp4", "x/b.mp4"] none
        ⟨[("x/a.mp4", "A"), ("x/b.mp4", "B")]⟩).calls = ["x/a.mp4"] :=
  ⟨clean_partial_failure_split.1 (fun _ => true) ["x/a.mp4", "x/b.mp4"] ⟨⟨[]⟩, [], []⟩,
   clean_partial_failure_split.2 (fun p => p == "x/a.mp4") 7 [] "x/a.mp4" ["x/b.mp4"] none
     ⟨[("x/a.mp4", "A"), ("x/b.mp4", "B")]⟩
     (by simp) (by decide) (by decide) (by decide)⟩

/-- C5 (counterexample): a concatenation failure that partially produced
its output raises, never launches the watermark invocation — yet the
partially produced merged file is still on disk when the call returns. -/
theorem concat_failure_leaves_merged_file :
    (merge_videos "/cwd" ⟨false, true, true, false⟩ ["a.mp4", "b.mp4"] 1 ⟨[]⟩ 0).result
      = Except.error PyErr.mergeFailed ∧
    ((merge_videos "/cwd" ⟨false, true, true, false⟩ ["a.mp4", "b.mp4"] 1 ⟨[]⟩ 0).events.filter
        isRunSub)
      = [Event.runSub (merge_cmd "./temp/1/list_0.txt" "./temp/1/merged_1.mp4")] ∧
    (merge_videos "/cwd" ⟨false, true, true, false⟩ ["a.mp4", "b.mp4"] 1 ⟨[]⟩ 0).fs.hasFile
      "./temp/1/merged_1.mp4" = true :=
  ⟨rfl, by decide, by decide⟩

/-- C5 (amended): on a concatenation failure the watermark stage is never
invoked (the concat launch is the only subprocess event) and the manifest
is removed, but a partially produced intermediate merged file is not
cleaned by the pipeline call: it remains on disk when the call returns. -/
theorem concat_failure_no_watermark (cwd : String) (po : PipelineOracle) (l : List Path)
    (uid : Nat) (fs : FS) (n : Nat) (hc : po.concatOk = false) :
    (merge_videos cwd po l uid fs n).result = Except.error PyErr.mergeFailed ∧
    ((merge_videos cwd po l uid fs n).events.filter isRunSub)
      = [Event.runSub (merge_cmd (merge_videos cwd po l uid fs n).list_file
          (merge_videos cwd po l uid fs n).merged_path)] ∧
    (merge_videos cwd po l uid fs n).fs.hasFile (merge_videos cwd po l uid fs n).list_file
      = false ∧
    (po.concatPartial = true →
      (merge_videos cwd po l uid fs n).fs.hasFile (merge_videos cwd po l uid fs n).merged_path
        = true) := by
  obtain ⟨h1, h2, h3⟩ := merge_videos_concatFail cwd po l uid fs n hc
  refine ⟨h1, h2, ?_, fun hp => ?_⟩
  · rw [h3]
    simp
  · rw [h3, hp]
    have hne : (merge_videos cwd po l uid fs n).merged_path
        ≠ (merge_videos cwd po l uid fs n).list_file := by
      obtain ⟨hlf, hmp, -, -⟩ := merge_videos_names cwd po l uid fs n
      rw [hlf, hmp]
      exact inDir_tag_ne uid
        (Ne.symm (listName_ne_mergedName (toString n) (toString (n + 1))))
    simp [hne]

theorem concat_failure_no_watermark_check :
    (merge_videos "/cwd" ⟨false, true, false, false⟩ ["a.mp4"] 2 ⟨[]⟩ 0).result
      = Except.error PyErr.mergeFailed :=
  (concat_failure_no_watermark "/cwd" ⟨false, true, false, false⟩ ["a.mp4"] 2 ⟨[]⟩ 0 rfl).1

/-- C10: `clean_user_videos` never lets an exception escape: viewed with
Python propagation semantics it returns normally — with exactly the value
the plain function computes — for every deletion-failure oracle, user,
path list, optional result path and filesystem. -/
theorem clean_user_videos_total (fail : Path → Bool) (uid : Nat) (l : List Path)
    (res : Option Path) (fs : FS) :
    clean_user_videos_E fail uid l res fs
      = Except.ok (clean_user_videos fail uid l res fs) := by
  unfold clean_user_videos_E clean_user_videos
  cases cleanBody fail uid l res ⟨fs, [], []⟩ with
  | ok s => rfl
  | error es =>
    cases es
    rfl

end WMerge
